import Mathlib

/-!
Verification of the IoT predictive-maintenance service (src/main.py).

The source is a small FastAPI application over a SQLite table
`iot_machine_data` and a pickled scikit-learn `LogisticRegression` model
file.  We embed it shallowly:

* floats become rationals (`ℚ`);
* the SQLite table becomes an append-only list of rows together with the
  next auto-assigned primary key (SQLite assigns ids 1, 2, 3, ... in
  insertion order for this table, and a bare `SELECT *` scan returns rows
  in that order — the Record Store contract of the spec, §4.2);
* the model artifact file becomes an optional byte list; the CPython
  `open(path, "wb")` + `pickle.dump` write in `train_model` is embedded
  as truncate-then-sequential-write with an explicit optional failure
  point (the index after which an I/O error strikes);
* the scikit-learn `fit` and the unpickled model's `predict` are opaque
  library calls, so they are parameters: `fit` may fail (raise), which the
  embedding models with `Except`, and `decode` turns artifact bytes into a
  decision function.
-/

namespace IoTMaintenance

/-- A row of the `iot_machine_data` table (class `IoTMachineData`,
src/main.py lines 26–33). -/
structure IoTMachineData where
  id : Nat
  machine_id : String
  temperature : ℚ
  vibration : ℚ
  pressure : ℚ
  status : String
deriving Repr, DecidableEq

/-- The SQLite record store: the stored rows in insertion order, plus the
next primary-key value the engine will assign. -/
structure Store where
  records : List IoTMachineData
  nextId : Nat
deriving Repr, DecidableEq

/-- A fresh database: no rows, first assigned id is 1. -/
def emptyStore : Store := { records := [], nextId := 1 }

/-- The inline labeling rule of `simulate_data` (src/main.py line 126):
`status = "FAIL" if (temperature > 90 or vibration > 0.08 or pressure < 28)
else "OK"`. -/
def statusRule (temperature vibration pressure : ℚ) : String :=
  if temperature > 90 ∨ vibration > 8/100 ∨ pressure < 28 then "FAIL" else "OK"

/-- Endpoint `add_data` (src/main.py lines 101–114): builds a row from the
given fields verbatim (no validation of `status`), inserts it, and returns
the confirmation message. -/
def add_data (machine_id : String) (temperature vibration pressure : ℚ)
    (status : String) (s : Store) : Store × String :=
  ({ records := s.records ++
       [{ id := s.nextId, machine_id := machine_id, temperature := temperature,
          vibration := vibration, pressure := pressure, status := status }],
     nextId := s.nextId + 1 },
   "Data added successfully")

/-- One loop iteration of `simulate_data` (src/main.py lines 122–135): given
the three uniform draws of this iteration, label them with the threshold
rule and insert the row. -/
def simInsert (machine_id : String) (s : Store) (draw : ℚ × ℚ × ℚ) : Store :=
  { records := s.records ++
      [{ id := s.nextId, machine_id := machine_id, temperature := draw.1,
         vibration := draw.2.1, pressure := draw.2.2,
         status := statusRule draw.1 draw.2.1 draw.2.2 }],
    nextId := s.nextId + 1 }

/-- Endpoint `simulate_data` (src/main.py lines 116–138).  The randomness is
an input: `draws i` is the triple `(temperature, vibration, pressure)`
produced by the three `random.uniform` calls of iteration `i`.  `count` is a
Python `int`; `for _ in range(count)` runs `max count 0` iterations. -/
def simulate_data (machine_id : String) (count : ℤ) (draws : ℕ → ℚ × ℚ × ℚ)
    (s : Store) : Store × String :=
  (((List.range count.toNat).map draws).foldl (simInsert machine_id) s,
   toString count ++ " simulated IoT records added for machine " ++ machine_id)

/-- `pd.read_sql("SELECT * FROM iot_machine_data", db.bind)`
(src/main.py line 51): every stored row, in id (= insertion) order. -/
def read_all (s : Store) : List IoTMachineData := s.records

/-- The feature matrix `X = data[["temperature", "vibration", "pressure"]]`
(src/main.py line 57), row order of `read_all`. -/
def trainFeatures (s : Store) : List (ℚ × ℚ × ℚ) :=
  (read_all s).map (fun r => (r.temperature, r.vibration, r.pressure))

/-- The label vector `y = data["status"].apply(lambda x: 1 if x == "FAIL"
else 0)` (src/main.py line 58), row order of `read_all`. -/
def trainLabels (s : Store) : List ℤ :=
  (read_all s).map (fun r => if r.status = "FAIL" then 1 else 0)

/-- The on-disk state relevant to the model: the contents of
`iot_maintenance_model.pkl` as bytes, or `none` when the file does not
exist. -/
structure FileState where
  modelFile : Option (List ℕ)
deriving Repr, DecidableEq

/-- The persistence step of `train_model` (src/main.py lines 63–64):
`with open(MODEL_FILE, "wb") as f: pickle.dump(model, f)`.  CPython mode
`"wb"` truncates the file on open, then the dump writes the serialized
bytes sequentially.  `failAt = some k` means an I/O error strikes after `k`
bytes were written: the call raises (`Except.error`) and the file holds the
first `k` bytes of the new serialization.  `failAt = none` is the
error-free run. -/
def writeModelFile (fs : FileState) (bytes : List ℕ) (failAt : Option ℕ) :
    Except FileState FileState :=
  match failAt with
  | none => .ok { fs with modelFile := some bytes }
  | some k => .error { fs with modelFile := some (bytes.take k) }

/-- `train_model` (src/main.py lines 49–66).  `fit` stands for
`LogisticRegression().fit` followed by pickling — an opaque library call
that either raises (modelled `Except.error`, e.g. the degenerate
single-class `ValueError`) or yields the serialized fitted model.  Reads
all rows; if the frame is empty returns `None` without touching the model
file; otherwise fits on `(trainFeatures, trainLabels)` unconditionally and
overwrites the model file in place.  `Sum.inl` carries an uncaught `fit`
exception, `Sum.inr` an I/O error during the write (with the file state it
leaves behind). -/
def train_model (fit : List (ℚ × ℚ × ℚ) → List ℤ → Except String (List ℕ))
    (failAt : Option ℕ) (s : Store) (fs : FileState) :
    Except (String ⊕ FileState) (Option (List ℕ) × FileState) :=
  if (read_all s).isEmpty then .ok (none, fs)
  else
    match fit (trainFeatures s) (trainLabels s) with
    | .error e => .error (Sum.inl e)
    | .ok bytes =>
      match writeModelFile fs bytes failAt with
      | .error fs2 => .error (Sum.inr fs2)
      | .ok fs2 => .ok (some bytes, fs2)

/-- `load_model` (src/main.py lines 68–72): the pickled bytes when the
model file exists, else `None`. -/
def load_model (fs : FileState) : Option (List ℕ) := fs.modelFile

/-- Endpoint `train` for route `/train_model` (src/main.py lines 140–146):
runs `train_model` and maps a truthy model to the success message, `None`
to the no-data message.  Uncaught exceptions propagate. -/
def train (fit : List (ℚ × ℚ × ℚ) → List ℤ → Except String (List ℕ))
    (failAt : Option ℕ) (s : Store) (fs : FileState) :
    Except (String ⊕ FileState) (String × FileState) :=
  match train_model fit failAt s fs with
  | .error e => .error e
  | .ok (some _, fs2) => .ok ("Model trained successfully", fs2)
  | .ok (none, fs2) => .ok ("No data available to train", fs2)

/-- The JSON body returned by `/predict`: either
`{"prediction": status}` or `{"error": msg}`. -/
inductive PredictResponse where
  | prediction (status : String)
  | error (msg : String)
deriving Repr, DecidableEq

/-- Endpoint `predict` (src/main.py lines 148–156).  `decode` stands for
unpickling the artifact and calling `model.predict([[t, v, p]])[0]` — an
opaque library call from bytes and the feature triple to the predicted
class.  If `load_model` yields `None` (`if not model:`), returns the
not-trained error; otherwise maps class 1 to `"FAIL"`, anything else to
`"OK"`. -/
def predict (decode : List ℕ → ℚ → ℚ → ℚ → ℤ) (fs : FileState)
    (temperature vibration pressure : ℚ) : PredictResponse :=
  match load_model fs with
  | none => .error "Model not trained yet"
  | some bytes =>
    .prediction
      (if decode bytes temperature vibration pressure = 1 then "FAIL" else "OK")

/-- The explicit insert payload of `add_data`: the five caller-supplied
fields, in endpoint-parameter order. -/
structure RecordInput where
  machine_id : String
  temperature : ℚ
  vibration : ℚ
  pressure : ℚ
  status : String
deriving Repr, DecidableEq

/-- The caller-visible fields of a stored row (everything but the
auto-assigned id). -/
def fieldsOf (r : IoTMachineData) : RecordInput :=
  { machine_id := r.machine_id, temperature := r.temperature,
    vibration := r.vibration, pressure := r.pressure, status := r.status }

/-- A sequence of `add_data` calls, left to right. -/
def insertAll (inputs : List RecordInput) (s : Store) : Store :=
  inputs.foldl
    (fun st x =>
      (add_data x.machine_id x.temperature x.vibration x.pressure x.status st).1)
    s

/-- Every stored status is one of the two enum values `"OK"`/`"FAIL"`
(the spec's status invariant, §3), as an executable check. -/
def statusOk (s : Store) : Bool :=
  s.records.all (fun r => r.status == "OK" || r.status == "FAIL")

/-- The rows appended by a run of `add_data` calls, given the first id the
store will assign: input `j` of the list becomes a row with id `i + j` and
the input's fields. -/
def addedRecs : ℕ → List RecordInput → List IoTMachineData
  | _, [] => []
  | i, x :: xs =>
    { id := i, machine_id := x.machine_id, temperature := x.temperature,
      vibration := x.vibration, pressure := x.pressure, status := x.status }
      :: addedRecs (i + 1) xs

lemma statusRule_fail_iff (t v p : ℚ) :
    statusRule t v p = "FAIL" ↔ (t > 90 ∨ v > 8/100 ∨ p < 28) := by
  unfold statusRule
  split <;> rename_i h <;> simp [h]

lemma statusRule_boundary_ok (t v p : ℚ) (ht : t ≤ 90) (hv : v ≤ 8/100)
    (hp : 28 ≤ p) : statusRule t v p = "OK" := by
  unfold statusRule
  rw [if_neg]
  push_neg
  exact ⟨ht, hv, hp⟩

lemma simInsert_foldl (m : String) :
    ∀ (l : List (ℚ × ℚ × ℚ)) (s : Store), ∃ rest,
      (l.foldl (simInsert m) s).records = s.records ++ rest ∧
      rest.length = l.length ∧
      ∀ r ∈ rest, r.machine_id = m ∧
        r.status = statusRule r.temperature r.vibration r.pressure := by
  intro l
  induction l with
  | nil => exact fun s => ⟨[], by simp, rfl, by simp⟩
  | cons x xs ih =>
    intro s
    obtain ⟨rest, hrec, hlen, hall⟩ := ih (simInsert m s x)
    refine ⟨{ id := s.nextId, machine_id := m, temperature := x.1,
              vibration := x.2.1, pressure := x.2.2,
              status := statusRule x.1 x.2.1 x.2.2 } :: rest, ?_, ?_, ?_⟩
    · rw [List.foldl_cons, hrec]
      simp [simInsert]
    · simp [hlen]
    · intro r hr
      rcases List.mem_cons.mp hr with hr | hr
      · subst hr; exact ⟨rfl, rfl⟩
      · exact hall r hr

lemma insertAll_records :
    ∀ (inputs : List RecordInput) (s : Store),
      (insertAll inputs s).records = s.records ++ addedRecs s.nextId inputs := by
  intro inputs
  induction inputs with
  | nil => intro s; simp [insertAll, addedRecs]
  | cons x xs ih =>
    intro s
    simp only [insertAll, List.foldl_cons] at ih ⊢
    rw [ih]
    simp [add_data, addedRecs]

lemma addedRecs_length : ∀ (i : ℕ) (l : List RecordInput),
    (addedRecs i l).length = l.length := by
  intro i l
  induction l generalizing i with
  | nil => rfl
  | cons x xs ih => simp [addedRecs, ih]

lemma addedRecs_fields : ∀ (i : ℕ) (l : List RecordInput),
    (addedRecs i l).map fieldsOf = l := by
  intro i l
  induction l generalizing i with
  | nil => rfl
  | cons x xs ih => simp [addedRecs, fieldsOf, ih]

lemma addedRecs_id_ge : ∀ (i : ℕ) (l : List RecordInput)
    (r : IoTMachineData), r ∈ addedRecs i l → i ≤ r.id := by
  intro i l
  induction l generalizing i with
  | nil => intro r hr; cases hr
  | cons x xs ih =>
    intro r hr
    rcases List.mem_cons.mp hr with hr | hr
    · subst hr; exact le_refl i
    · exact Nat.le_of_succ_le (ih (i + 1) r hr)

lemma addedRecs_ids_strict : ∀ (i : ℕ) (l : List RecordInput),
    List.Pairwise (· < ·) ((addedRecs i l).map (·.id)) := by
  intro i l
  induction l generalizing i with
  | nil => exact List.Pairwise.nil
  | cons x xs ih =>
    refine List.pairwise_cons.mpr ⟨?_, ih (i + 1)⟩
    intro b hb
    obtain ⟨r, hr, hrb⟩ := List.mem_map.mp hb
    exact hrb ▸ Nat.lt_of_succ_le (addedRecs_id_ge (i + 1) xs r hr)

lemma statusRule_ok_or_fail (t v p : ℚ) :
    statusRule t v p = "OK" ∨ statusRule t v p = "FAIL" := by
  unfold statusRule
  split
  · exact Or.inr rfl
  · exact Or.inl rfl

lemma simulate_data_records (m : String) (c : ℤ) (d : ℕ → ℚ × ℚ × ℚ)
    (s : Store) : ∃ rest,
    (simulate_data m c d s).1.records = s.records ++ rest ∧
    rest.length = c.toNat ∧
    ∀ r ∈ rest, r.machine_id = m ∧
      r.status = statusRule r.temperature r.vibration r.pressure := by
  obtain ⟨rest, hrec, hlen, hall⟩ :=
    simInsert_foldl m ((List.range c.toNat).map d) s
  exact ⟨rest, hrec, by simpa using hlen, hall⟩

/-- A concrete deterministic stand-in for the three `random.uniform` draws:
every iteration yields temperature 95, vibration 0.01, pressure 30. -/
def simDraw0 : ℕ → ℚ × ℚ × ℚ := fun _ => (95, 1/100, 30)

/-- A stand-in `fit` that always succeeds with serialization `[9, 9]`. -/
def fitConst : List (ℚ × ℚ × ℚ) → List ℤ → Except String (List ℕ) :=
  fun _ _ => .ok [9, 9]

/-- A stand-in `fit` that raises, as scikit-learn may on a degenerate
single-class training set. -/
def fitErr : List (ℚ × ℚ × ℚ) → List ℤ → Except String (List ℕ) :=
  fun _ _ => .error "numerical error"

/-- A pre-existing model artifact on disk. -/
def fsOld : FileState := { modelFile := some [1, 2, 3] }

/-- A store holding a single row inserted by `add_data`. -/
def storeOne : Store := (add_data "m1" 70 (2/100) 30 "OK" emptyStore).1

/-- A store whose only row is labeled `"FAIL"` (degenerate label set). -/
def storeFail : Store := (add_data "m1" 95 (9/100) 20 "FAIL" emptyStore).1

/-- C1: every record generated by `simulate_data` has status `"FAIL"` iff
`temperature > 90 ∨ vibration > 0.08 ∨ pressure < 28`, and at the exact
boundaries (`temperature = 90`, `vibration = 0.08`, `pressure = 28`, none
strictly exceeded) the status is `"OK"`. -/
theorem simulate_data_status_fail_iff :
    (∀ (m : String) (c : ℤ) (d : ℕ → ℚ × ℚ × ℚ) (s : Store),
      ∀ r ∈ (simulate_data m c d s).1.records.drop s.records.length,
        (r.status = "FAIL" ↔
          (r.temperature > 90 ∨ r.vibration > 8/100 ∨ r.pressure < 28))) ∧
    (∀ t v p : ℚ, t ≤ 90 → v ≤ 8/100 → 28 ≤ p → statusRule t v p = "OK") := by
  constructor
  · intro m c d s r hr
    obtain ⟨rest, hrec, -, hall⟩ := simulate_data_records m c d s
    rw [hrec, List.drop_left] at hr
    obtain ⟨-, hst⟩ := hall r hr
    rw [hst]
    exact statusRule_fail_iff _ _ _
  · exact statusRule_boundary_ok

/-- C1 witness: the single record generated from the draw
(95, 0.01, 30) is stored with status `"FAIL"`, and the rule agrees. -/
theorem simulate_data_status_fail_iff_witness :
    ({ id := 1, machine_id := "m1", temperature := 95, vibration := 1/100,
       pressure := 30, status := "FAIL" } : IoTMachineData) ∈
      (simulate_data "m1" 1 simDraw0 emptyStore).1.records.drop
        emptyStore.records.length ∧
    (("FAIL" : String) = "FAIL" ↔
      ((95 : ℚ) > 90 ∨ (1/100 : ℚ) > 8/100 ∨ (30 : ℚ) < 28)) := by
  have hlist :
      (simulate_data "m1" 1 simDraw0 emptyStore).1.records.drop
        emptyStore.records.length =
      [{ id := 1, machine_id := "m1", temperature := 95, vibration := 1/100,
         pressure := 30, status := "FAIL" }] := rfl
  have hmem :
      ({ id := 1, machine_id := "m1", temperature := 95, vibration := 1/100,
         pressure := 30, status := "FAIL" } : IoTMachineData) ∈
        (simulate_data "m1" 1 simDraw0 emptyStore).1.records.drop
          emptyStore.records.length := by
    rw [hlist]
    exact List.mem_singleton.mpr rfl
  exact ⟨hmem,
    simulate_data_status_fail_iff.1 "m1" 1 simDraw0 emptyStore _ hmem⟩

/-- C2 counterexample: with an existing artifact `[1, 2, 3]` on disk, a fit
yielding `[9, 9]`, and an I/O error after 1 byte, `train_model` leaves the
file holding `[9]` — the old model is partially overwritten, so the
replacement is not atomic. -/
theorem train_model_overwrite_not_atomic_cex :
    train_model fitConst (some 1) storeOne fsOld =
      .error (Sum.inr { modelFile := some [9] }) ∧
    fsOld.modelFile = some [1, 2, 3] ∧
    (some [9] : Option (List ℕ)) ≠ some [1, 2, 3] := by
  refine ⟨rfl, rfl, by decide⟩

/-- C2 amended: `train_model` overwrites the model file in place (CPython
`open(.., "wb")` truncates, then the dump writes sequentially), so when the
write fails after `k` bytes the file holds the first `k` bytes of the new
serialization — the old artifact is lost, not preserved. -/
theorem train_model_truncate_write_on_failure
    (fit : List (ℚ × ℚ × ℚ) → List ℤ → Except String (List ℕ))
    (s : Store) (fs : FileState) (bytes : List ℕ) (k : ℕ)
    (hne : (read_all s).isEmpty = false)
    (hfit : fit (trainFeatures s) (trainLabels s) = .ok bytes) :
    train_model fit (some k) s fs =
      .error (Sum.inr { fs with modelFile := some (bytes.take k) }) := by
  simp [train_model, hne, hfit, writeModelFile]

/-- C2 amended witness: concrete run of the truncate-write failure. -/
theorem train_model_truncate_write_on_failure_witness :
    (read_all storeOne).isEmpty = false ∧
    fitConst (trainFeatures storeOne) (trainLabels storeOne) = .ok [9, 9] ∧
    train_model fitConst (some 1) storeOne fsOld =
      .error (Sum.inr { fsOld with modelFile := some ([9, 9].take 1) }) :=
  ⟨rfl, rfl,
    train_model_truncate_write_on_failure fitConst storeOne fsOld [9, 9] 1
      rfl rfl⟩

/-- C3: after `N` inserts into a fresh store, `read_all` returns exactly
`N` records, with strictly increasing ids, whose fields are the inserted
inputs in insertion order. -/
theorem read_all_after_inserts (inputs : List RecordInput) :
    (read_all (insertAll inputs emptyStore)).length = inputs.length ∧
    List.Pairwise (· < ·)
      ((read_all (insertAll inputs emptyStore)).map (·.id)) ∧
    (read_all (insertAll inputs emptyStore)).map fieldsOf = inputs := by
  have h2 : read_all (insertAll inputs emptyStore) = addedRecs 1 inputs := by
    show (insertAll inputs emptyStore).records = addedRecs 1 inputs
    rw [insertAll_records inputs emptyStore]
    rfl
  rw [h2]
  exact ⟨addedRecs_length 1 inputs, addedRecs_ids_strict 1 inputs,
    addedRecs_fields 1 inputs⟩

/-- C4 counterexample: `add_data` stores its `status` argument unvalidated,
so inserting status `"banana"` into a state satisfying the enum invariant
yields a reachable state violating it. -/
theorem add_data_status_unvalidated_cex :
    ((add_data "m1" 70 (2/100) 30 "banana" emptyStore).1.records.map
      (·.status)) = ["banana"] ∧
    statusOk emptyStore = true ∧
    statusOk (add_data "m1" 70 (2/100) 30 "banana" emptyStore).1 = false :=
  ⟨rfl, rfl, by decide⟩

/-- C4 amended: the status-enum invariant is preserved by `simulate_data`
unconditionally, and by `add_data` only when the caller-supplied status is
itself `"OK"` or `"FAIL"` (`add_data` performs no validation). -/
theorem status_invariant_preserved_amended :
    (∀ (m : String) (c : ℤ) (d : ℕ → ℚ × ℚ × ℚ) (s : Store),
      statusOk s = true → statusOk (simulate_data m c d s).1 = true) ∧
    (∀ (m : String) (t v p : ℚ) (st : String) (s : Store),
      statusOk s = true → (st = "OK" ∨ st = "FAIL") →
      statusOk (add_data m t v p st s).1 = true) := by
  constructor
  · intro m c d s hs
    obtain ⟨rest, hrec, -, hall⟩ := simulate_data_records m c d s
    unfold statusOk at hs ⊢
    rw [hrec, List.all_append, Bool.and_eq_true]
    refine ⟨hs, List.all_eq_true.mpr ?_⟩
    intro r hr
    obtain ⟨-, hst⟩ := hall r hr
    rcases statusRule_ok_or_fail r.temperature r.vibration r.pressure
      with h | h <;> simp [hst, h]
  · intro m t v p st s hs hst
    unfold statusOk at hs ⊢
    rw [add_data, List.all_append, Bool.and_eq_true]
    refine ⟨hs, ?_⟩
    rcases hst with h | h <;> simp [h]

/-- C4 amended witness: concrete preservation runs. -/
theorem status_invariant_preserved_amended_witness :
    statusOk emptyStore = true ∧
    statusOk (simulate_data "m1" 1 simDraw0 emptyStore).1 = true ∧
    statusOk (add_data "m1" 70 (2/100) 30 "FAIL" emptyStore).1 = true :=
  ⟨rfl,
   status_invariant_preserved_amended.1 "m1" 1 simDraw0 emptyStore rfl,
   status_invariant_preserved_amended.2 "m1" 70 (2/100) 30 "FAIL" emptyStore
     rfl (Or.inr rfl)⟩

/-- C5: calling `train` on an empty store returns the "No data available to
train" message as a normal result, and the model file state is returned
unchanged — the previously persisted artifact is untouched. -/
theorem train_empty_no_data
    (fit : List (ℚ × ℚ × ℚ) → List ℤ → Except String (List ℕ))
    (failAt : Option ℕ) (s : Store) (fs : FileState)
    (h : read_all s = []) :
    train fit failAt s fs = .ok ("No data available to train", fs) := by
  simp [train, train_model, h]

/-- C5 witness: training on the fresh store with an existing artifact. -/
theorem train_empty_no_data_witness :
    read_all emptyStore = [] ∧
    train fitConst none emptyStore fsOld =
      .ok ("No data available to train", fsOld) :=
  ⟨rfl, train_empty_no_data fitConst none emptyStore fsOld rfl⟩

/-- C6: when no persisted model exists, `predict` returns the distinct
"Model not trained yet" error value (as a total function — no exception),
for every decision function and every input triple. -/
theorem predict_not_trained (decode : List ℕ → ℚ → ℚ → ℚ → ℤ)
    (fs : FileState) (t v p : ℚ) (h : load_model fs = none) :
    predict decode fs t v p = .error "Model not trained yet" := by
  unfold predict
  rw [h]

/-- C6 witness: prediction against a missing model file. -/
theorem predict_not_trained_witness :
    load_model { modelFile := none } = none ∧
    predict (fun _ _ _ _ => 0) { modelFile := none } 80 (5/100) 28 =
      .error "Model not trained yet" :=
  ⟨rfl, predict_not_trained (fun _ _ _ _ => 0) { modelFile := none }
    80 (5/100) 28 rfl⟩

/-- C7: a record inserted by `add_data` with explicit field values
(any status, `"FAIL"` included) reads back as the last stored record with
identical machine_id, temperature, vibration, pressure, and status. -/
theorem add_data_read_back_roundtrip (m : String) (t v p : ℚ)
    (st : String) (s : Store) :
    (read_all (add_data m t v p st s).1).getLast? =
      some { id := s.nextId, machine_id := m, temperature := t,
             vibration := v, pressure := p, status := st } ∧
    ((read_all (add_data m t v p st s).1).getLast?).map fieldsOf =
      some { machine_id := m, temperature := t, vibration := v,
             pressure := p, status := st } := by
  have h : (read_all (add_data m t v p st s).1).getLast? =
      some { id := s.nextId, machine_id := m, temperature := t,
             vibration := v, pressure := p, status := st } := by
    simp [read_all, add_data]
  exact ⟨h, by rw [h]; rfl⟩

/-- C8 counterexample: at `count = -1` (a legal Python `int`),
`simulate_data` inserts no record at all — not `-1` records — while its
confirmation message still mentions `-1`. -/
theorem simulate_data_negative_count_cex :
    (simulate_data "m1" (-1) simDraw0 emptyStore).1.records.length = 0 ∧
    ((0 : ℤ) ≠ (emptyStore.records.length : ℤ) + (-1)) ∧
    (simulate_data "m1" (-1) simDraw0 emptyStore).2 =
      "-1 simulated IoT records added for machine m1" := by
  refine ⟨rfl, by decide, rfl⟩

/-- C8 amended: for every `count ≥ 0`, `simulate_data(machine_id, count)`
appends exactly `count` records, all carrying the given machine_id, and
returns only the confirmation message mentioning `count`. -/
theorem simulate_data_count_records (m : String) (c : ℤ)
    (d : ℕ → ℚ × ℚ × ℚ) (s : Store) (hc : 0 ≤ c) :
    ((simulate_data m c d s).1.records.length : ℤ) =
      (s.records.length : ℤ) + c ∧
    (∀ r ∈ (simulate_data m c d s).1.records.drop s.records.length,
      r.machine_id = m) ∧
    (simulate_data m c d s).2 =
      toString c ++ " simulated IoT records added for machine " ++ m := by
  obtain ⟨rest, hrec, hlen, hall⟩ := simulate_data_records m c d s
  refine ⟨?_, ?_, rfl⟩
  · rw [hrec, List.length_append, hlen]
    push_cast [Int.toNat_of_nonneg hc]
    ring
  · intro r hr
    rw [hrec, List.drop_left] at hr
    exact (hall r hr).1

/-- C8 amended witness: two simulated records for machine "m1". -/
theorem simulate_data_count_records_witness :
    (0 : ℤ) ≤ 2 ∧
    (((simulate_data "m1" 2 simDraw0 emptyStore).1.records.length : ℤ) =
        (emptyStore.records.length : ℤ) + 2 ∧
      (∀ r ∈ (simulate_data "m1" 2 simDraw0 emptyStore).1.records.drop
          emptyStore.records.length, r.machine_id = "m1") ∧
      (simulate_data "m1" 2 simDraw0 emptyStore).2 =
        toString (2 : ℤ) ++ " simulated IoT records added for machine " ++
          "m1") :=
  ⟨by decide,
    simulate_data_count_records "m1" 2 simDraw0 emptyStore (by decide)⟩

/-- C9: on every non-empty store whose labels are all identical — by the
line-58 labeling rule that is: every status exactly `"FAIL"` (all labels 1)
or every status not `"FAIL"`, all-`"OK"` included (all labels 0) —
`train_model` builds the degenerate constant label vector and still calls
`fit` on it unconditionally — there is no degenerate-training-set check —
and any numerical error `fit` raises propagates uncaught out of `train`. -/
theorem train_degenerate_naive_fit
    (fit : List (ℚ × ℚ × ℚ) → List ℤ → Except String (List ℕ))
    (failAt : Option ℕ) (s : Store) (fs : FileState) (e : String)
    (hne : s.records ≠ [])
    (hdeg : (∀ r ∈ s.records, r.status = "FAIL") ∨
      (∀ r ∈ s.records, r.status ≠ "FAIL"))
    (hfit : fit (trainFeatures s) (trainLabels s) = .error e) :
    (trainLabels s = List.replicate s.records.length 1 ∨
      trainLabels s = List.replicate s.records.length 0) ∧
    train fit failAt s fs = .error (Sum.inl e) := by
  constructor
  · rcases hdeg with hdeg | hdeg
    · left
      rw [List.eq_replicate_iff]
      refine ⟨by simp [trainLabels, read_all], ?_⟩
      intro b hb
      obtain ⟨r, hr, hrb⟩ := List.mem_map.mp hb
      rw [← hrb, hdeg r hr]
      rfl
    · right
      rw [List.eq_replicate_iff]
      refine ⟨by simp [trainLabels, read_all], ?_⟩
      intro b hb
      obtain ⟨r, hr, hrb⟩ := List.mem_map.mp hb
      rw [← hrb, if_neg (hdeg r hr)]
  · have hne2 : (read_all s).isEmpty = false := by
      simp [read_all, List.isEmpty_iff, hne]
    simp [train, train_model, hne2, hfit]

/-- C9 witness: one all-`"FAIL"` record; a `fit` raising a numerical error
makes `train` propagate it. -/
theorem train_degenerate_naive_fit_witness :
    storeFail.records ≠ [] ∧
    ((∀ r ∈ storeFail.records, r.status = "FAIL") ∨
      (∀ r ∈ storeFail.records, r.status ≠ "FAIL")) ∧
    fitErr (trainFeatures storeFail) (trainLabels storeFail) =
      .error "numerical error" ∧
    ((trainLabels storeFail = List.replicate storeFail.records.length 1 ∨
        trainLabels storeFail = List.replicate storeFail.records.length 0) ∧
      train fitErr none storeFail { modelFile := none } =
        .error (Sum.inl "numerical error")) :=
  ⟨by decide, Or.inl (by decide), rfl,
    train_degenerate_naive_fit fitErr none storeFail { modelFile := none }
      "numerical error" (by decide) (Or.inl (by decide)) rfl⟩

/-- C10: the training label of a record inserted by `add_data` is 1 exactly
when its (unvalidated) status string is the exact string `"FAIL"`; any
other string — `"fail"`, `"Ok"`, arbitrary — is mapped to label 0, the OK
class. -/
theorem trainLabels_exact_fail_only (m : String) (t v p : ℚ)
    (st : String) (s : Store) (h : st ≠ "FAIL") :
    trainLabels (add_data m t v p st s).1 = trainLabels s ++ [0] ∧
    trainLabels (add_data m t v p "FAIL" s).1 = trainLabels s ++ [1] := by
  constructor <;> simp [trainLabels, read_all, add_data, h]

/-- C10 witness: lowercase `"fail"` is mapped to label 0, exact `"FAIL"`
to label 1. -/
theorem trainLabels_exact_fail_only_witness :
    ("fail" : String) ≠ "FAIL" ∧
    (trainLabels (add_data "m1" 70 (2/100) 30 "fail" emptyStore).1 =
        trainLabels emptyStore ++ [0] ∧
      trainLabels (add_data "m1" 70 (2/100) 30 "FAIL" emptyStore).1 =
        trainLabels emptyStore ++ [1]) :=
  ⟨by decide,
    trainLabels_exact_fail_only "m1" 70 (2/100) 30 "fail" emptyStore
      (by decide)⟩

end IoTMaintenance
